import Mathlib

/-!
Verification of the country-analytics dashboard (`date_analytics.py`).

The development shallowly embeds the data pipeline of the script:
loading and column validation, snapshot selection by most recent year,
null checking, composite scoring, ranking, country-name validation,
the linear-regression forecast, and the currency-conversion utility.
Machine reals are modelled by exact rationals.
-/

/-! ## Currency converter (source lines 253-289) -/

/-- Result of the outbound HTTP fetch in `get_exchange_rate`:
either the request raised (network or parse error), or it produced a JSON
body whose optional field is the value of the key named rates, a mapping
from currency codes to USD-relative rates (the field is none when the key
is absent from the body). -/
inductive FetchResult where
  | success : Option (List (String × ℚ)) → FetchResult
  | failure : String → FetchResult
deriving DecidableEq

/-- Embedding of the Python dict lookup with default None:
the expression data["rates"].get(code, None). -/
def lookupRate (rates : List (String × ℚ)) (code : String) : Option ℚ :=
  (rates.find? (fun p => p.1 == code)).map (fun p => p.2)

/-- Embedding of `get_exchange_rate(moeda_origem, moeda_destino)`
(source lines 253-274), with the fetch outcome made an explicit argument.
A thrown exception returns 1; a body without a rates key returns 1;
the division taxa_destino / taxa_origem is executed only when both
looked-up rates are truthy in the Python sense (present and nonzero),
and otherwise 1 is returned. -/
def get_exchange_rate (resp : FetchResult) (moeda_origem moeda_destino : String) : ℚ :=
  match resp with
  | .failure _ => 1
  | .success none => 1
  | .success (some rates) =>
    match lookupRate rates moeda_origem, lookupRate rates moeda_destino with
    | some taxa_origem, some taxa_destino =>
      if taxa_origem != 0 && taxa_destino != 0 then taxa_destino / taxa_origem else 1
    | some _, none => 1
    | none, some _ => 1
    | none, none => 1

/-- Embedding of the Converter button body (source lines 286-289):
valor_convertido = valor * taxa. -/
def valor_convertido (resp : FetchResult) (moeda_origem moeda_destino : String)
    (valor : ℚ) : ℚ :=
  valor * get_exchange_rate resp moeda_origem moeda_destino

theorem get_rate_some_some (rates : List (String × ℚ)) (src dst : String) (o d : ℚ)
    (ho : lookupRate rates src = some o) (hd : lookupRate rates dst = some d) :
    get_exchange_rate (.success (some rates)) src dst =
      if o != 0 && d != 0 then d / o else 1 := by
  simp only [get_exchange_rate, ho, hd]

theorem get_rate_src_none (rates : List (String × ℚ)) (src dst : String)
    (h : lookupRate rates src = none) :
    get_exchange_rate (.success (some rates)) src dst = 1 := by
  simp only [get_exchange_rate, h]
  cases hd : lookupRate rates dst <;> simp only

theorem get_rate_dst_none (rates : List (String × ℚ)) (src dst : String)
    (h : lookupRate rates dst = none) :
    get_exchange_rate (.success (some rates)) src dst = 1 := by
  simp only [get_exchange_rate, h]
  cases ho : lookupRate rates src <;> simp only

/-- C5: when the fetched body has a rates mapping holding nonzero rates for
both the source and the destination code, the converted value equals
amount × (rate destination / rate source); no failure branch is taken. -/
theorem converter_rate_correct (rates : List (String × ℚ))
    (src dst : String) (amount o d : ℚ)
    (ho : lookupRate rates src = some o) (hd : lookupRate rates dst = some d)
    (ho0 : o ≠ 0) (hd0 : d ≠ 0) (hamt : 0 ≤ amount) :
    valor_convertido (.success (some rates)) src dst amount = amount * (d / o) := by
  rw [valor_convertido, get_rate_some_some rates src dst o d ho hd]
  simp [ho0, hd0]

/-- Witness for C5: with rates USD 1, EUR 9/10, BRL 5, converting 100 from
BRL to EUR yields exactly 18. -/
theorem converter_rate_correct_witness :
    lookupRate [("USD", (1 : ℚ)), ("EUR", 9/10), ("BRL", 5)] "BRL" = some 5 ∧
    lookupRate [("USD", (1 : ℚ)), ("EUR", 9/10), ("BRL", 5)] "EUR" = some (9/10) ∧
    valor_convertido (.success (some [("USD", (1 : ℚ)), ("EUR", 9/10), ("BRL", 5)]))
      "BRL" "EUR" 100 = 18 := by
  refine ⟨by decide, rfl, ?_⟩
  have h := converter_rate_correct [("USD", (1 : ℚ)), ("EUR", 9/10), ("BRL", 5)]
    "BRL" "EUR" 100 5 (9/10) (by decide) rfl (by decide) (by norm_num) (by norm_num)
  rw [h]
  norm_num

/-- C6: on any failure of the rate lookup (thrown exception, body without a
rates mapping, or either code absent from the rates) `get_exchange_rate`
returns 1 and the converted value is the input amount unchanged. -/
theorem converter_fallback_identity (resp : FetchResult)
    (src dst : String) (valor : ℚ)
    (h : (∃ msg, resp = .failure msg) ∨ resp = .success none ∨
      ∃ rates, resp = .success (some rates) ∧
        (lookupRate rates src = none ∨ lookupRate rates dst = none)) :
    get_exchange_rate resp src dst = 1 ∧
      valor_convertido resp src dst valor = valor := by
  have h1 : get_exchange_rate resp src dst = 1 := by
    rcases h with ⟨msg, rfl⟩ | rfl | ⟨rates, rfl, hr⟩
    · rfl
    · rfl
    · rcases hr with hr | hr
      · exact get_rate_src_none rates src dst hr
      · exact get_rate_dst_none rates src dst hr
  exact ⟨h1, by rw [valor_convertido, h1, mul_one]⟩

/-- Witness for C6: a thrown network error leaves the amount 42 unchanged. -/
theorem converter_fallback_identity_witness :
    get_exchange_rate (.failure "timeout") "BRL" "EUR" = 1 ∧
      valor_convertido (.failure "timeout") "BRL" "EUR" 42 = 42 :=
  converter_fallback_identity (.failure "timeout") "BRL" "EUR" 42
    (Or.inl ⟨"timeout", rfl⟩)

/-- C9: converting a currency to itself is the identity whenever the fetched
rates hold a nonzero rate for that code. -/
theorem convert_self_identity (rates : List (String × ℚ)) (m : String)
    (r : ℚ) (hr : lookupRate rates m = some r) (h0 : r ≠ 0) (valor : ℚ) :
    get_exchange_rate (.success (some rates)) m m = 1 ∧
      valor_convertido (.success (some rates)) m m valor = valor := by
  have h1 : get_exchange_rate (.success (some rates)) m m = 1 := by
    rw [get_rate_some_some rates m m r r hr hr]
    simp [h0, div_self]
  exact ⟨h1, by rw [valor_convertido, h1, mul_one]⟩

/-- Witness for C9: converting 42 BRL to BRL with rate 5 gives back 42. -/
theorem convert_self_identity_witness :
    lookupRate [("BRL", (5 : ℚ))] "BRL" = some 5 ∧
      valor_convertido (.success (some [("BRL", (5 : ℚ))])) "BRL" "BRL" 42 = 42 :=
  ⟨by decide,
    (convert_self_identity [("BRL", (5 : ℚ))] "BRL" 5 (by decide) (by decide) 42).2⟩

/-! ## Dataset loading and column validation (source lines 25-38) -/

/-- Whitespace trimming of a character list: the Python str.strip
behaviour on the characters of the string. -/
def stripChars (l : List Char) : List Char :=
  ((l.dropWhile Char.isWhitespace).reverse.dropWhile Char.isWhitespace).reverse

/-- Embedding of the pandas column-label cleanup imoveis.columns.str.strip
applied to one label. -/
def stripStr (s : String) : String := String.mk (stripChars s.data)

/-- The four required columns, source line 25. -/
def target_columns : List String :=
  ["Country", "Year", "GDP Growth (%)", "Population Growth (%)"]

/-- Embedding of the essential-column verification (source lines 28-34):
after trimming every column label, if some target column is absent the load
halts with the list missing_cols of exactly the absent target columns,
otherwise loading succeeds. -/
def load_check (cols : List String) : Except (List String) Unit :=
  let trimmed := cols.map stripStr
  if target_columns.all (fun c => trimmed.contains c) then .ok ()
  else .error (target_columns.filter (fun c => !(trimmed.contains c)))

/-- C4: the load step succeeds exactly when every required column is present
after trimming, and on failure the reported list is nonempty and holds
exactly the missing required columns. -/
theorem load_check_spec (cols : List String) :
    (load_check cols = .ok () ↔ ∀ c ∈ target_columns, c ∈ cols.map stripStr) ∧
    (∀ e, load_check cols = .error e →
      e ≠ [] ∧ ∀ c, (c ∈ e ↔ c ∈ target_columns ∧ c ∉ cols.map stripStr)) := by
  by_cases hall : (target_columns.all (fun c => (cols.map stripStr).contains c)) = true
  · have hlc : load_check cols = .ok () := by
      unfold load_check
      rw [if_pos hall]
    constructor
    · rw [hlc]
      refine iff_of_true rfl ?_
      intro c hc
      exact List.elem_iff.mp (List.all_eq_true.mp hall c hc)
    · intro e he
      rw [hlc] at he
      exact absurd he (by simp)
  · have hlc : load_check cols =
        .error (target_columns.filter (fun c => !((cols.map stripStr).contains c))) := by
      unfold load_check
      rw [if_neg hall]
    constructor
    · rw [hlc]
      constructor
      · intro h
        exact absurd h (by simp)
      · intro h
        exact absurd (List.all_eq_true.mpr (fun c hc => List.elem_iff.mpr (h c hc))) hall
    · intro e he
      rw [hlc, Except.error.injEq] at he
      subst he
      constructor
      · simp only [List.all_eq_true, not_forall] at hall
        obtain ⟨c, hc, hnc⟩ := hall
        refine List.ne_nil_of_mem (a := c) ?_
        exact List.mem_filter.mpr ⟨hc, by simpa using hnc⟩
      · intro c
        simp [List.mem_filter, List.elem_iff]

/-- Witness for C4: a table with only three columns (one padded with a
space) is rejected with exactly the single missing column name. -/
theorem load_check_spec_witness :
    load_check ["Country ", "Year", "GDP Growth (%)"] =
      .error ["Population Growth (%)"] ∧
    (["Population Growth (%)"] : List String) ≠ [] := by
  refine ⟨rfl, ?_⟩
  exact (((load_check_spec ["Country ", "Year", "GDP Growth (%)"]).2
    ["Population Growth (%)"] rfl).1)

/-! ## Snapshot selection, null check and scoring (source lines 40-54) -/

/-- One record of the loaded table: the two growth columns may hold a
missing value. -/
structure Row where
  country : String
  year : Int
  gdp : Option ℚ
  pop : Option ℚ
deriving DecidableEq

/-- One row of the snapshot after scoring: both growth values present,
together with the derived Score column. -/
structure ScoredRow where
  country : String
  year : Int
  gdp : ℚ
  pop : ℚ
  score : ℚ
deriving DecidableEq

/-- Embedding of imoveis.Year.max, the most recent year (source line 41);
none on an empty table. -/
def maxYear : List Row → Option Int
  | [] => none
  | r :: rs => some (rs.foldl (fun m x => max m x.year) r.year)

/-- Embedding of dados_recentes (source line 42): the rows whose Year
equals the maximum Year. -/
def snapshotOf (ds : List Row) : List Row :=
  match maxYear ds with
  | none => []
  | some m => ds.filter (fun r => r.year == m)

/-- Embedding of the isnull().values.any() test over the two analysis
columns of the snapshot (source line 45). -/
def hasNullSnapshot (ds : List Row) : Bool :=
  (snapshotOf ds).any (fun r => r.gdp.isNone || r.pop.isNone)

/-- The warning shown when the null check fires (source line 46). -/
def nullMsg : String :=
  "Existem valores nulos nas colunas usadas para análise. Por favor, verifique o dataset."

/-- Scoring of one snapshot row (source lines 50-54): the weighted sum of
the two growth columns with the pesos weights 0.7 and 0.3; defined on rows
whose growth values are present. -/
def scoreRow? (r : Row) : Option ScoredRow :=
  match r.gdp, r.pop with
  | some g, some p => some ⟨r.country, r.year, g, p, g * 0.7 + p * 0.3⟩
  | _, _ => none

/-- The snapshot-analysis prefix of the script (source lines 40-54): select
the most recent year, halt when a null appears in either analysis column of
the snapshot, otherwise compute the Score column. -/
def analyze (ds : List Row) : Except String (List ScoredRow) :=
  if hasNullSnapshot ds then .error nullMsg
  else .ok ((snapshotOf ds).filterMap scoreRow?)

theorem length_filterMap_of_isSome {α β : Type} (f : α → Option β) (l : List α)
    (h : ∀ x ∈ l, (f x).isSome = true) :
    (l.filterMap f).length = l.length := by
  induction l with
  | nil => rfl
  | cons x xs ih =>
    have hx := h x (by simp)
    rcases hfx : f x with _ | b
    · rw [hfx] at hx
      simp at hx
    · simp only [List.filterMap_cons, hfx, List.length_cons]
      rw [ih (fun y hy => h y (by simp [hy]))]

/-- C1: whenever the pipeline reaches scoring, every scored row's Score is
0.7 times its GDP growth plus 0.3 times its population growth, and every
snapshot row with both values present appears in the scored table with
exactly that Score. -/
theorem score_formula (ds : List Row) (scored : List ScoredRow)
    (hok : analyze ds = .ok scored) :
    (∀ sr ∈ scored, sr.score = 0.7 * sr.gdp + 0.3 * sr.pop) ∧
    (∀ r ∈ snapshotOf ds, ∀ g p, r.gdp = some g → r.pop = some p →
      (⟨r.country, r.year, g, p, g * 0.7 + p * 0.3⟩ : ScoredRow) ∈ scored) := by
  rw [analyze] at hok
  split at hok
  · exact absurd hok (by simp)
  · rw [Except.ok.injEq] at hok
    subst hok
    constructor
    · intro sr hsr
      obtain ⟨r, _, hf⟩ := List.mem_filterMap.mp hsr
      rw [scoreRow?] at hf
      rcases hg : r.gdp with _ | g
      · rw [hg] at hf
        exact absurd hf (by simp)
      · rcases hp : r.pop with _ | p
        · rw [hg, hp] at hf
          exact absurd hf (by simp)
        · rw [hg, hp] at hf
          have hf2 : (⟨r.country, r.year, g, p, g * 0.7 + p * 0.3⟩ : ScoredRow) = sr :=
            Option.some.inj hf
          rw [← hf2]
          show g * 0.7 + p * 0.3 = 0.7 * g + 0.3 * p
          ring
    · intro r hr g p hg hp
      exact List.mem_filterMap.mpr ⟨r, hr, by rw [scoreRow?, hg, hp]⟩

/-- Witness for C1: a one-row dataset is scored, and every scored row obeys
the Score formula. -/
theorem score_formula_witness :
    analyze [⟨"A", 2024, some 10, some 0⟩] =
      .ok [⟨"A", 2024, 10, 0, 10 * 0.7 + 0 * 0.3⟩] ∧
    ∀ sr ∈ ([⟨"A", 2024, 10, 0, 10 * 0.7 + 0 * 0.3⟩] : List ScoredRow),
      sr.score = 0.7 * sr.gdp + 0.3 * sr.pop := by
  have hok : analyze [⟨"A", 2024, some 10, some 0⟩] =
      .ok [⟨"A", 2024, 10, 0, 10 * 0.7 + 0 * 0.3⟩] := rfl
  exact ⟨hok, (score_formula _ _ hok).1⟩

/-- C3: a null in either analysis column of the snapshot halts the run with
the null warning before any Score is computed, and in the absence of nulls
the run proceeds to scoring, scoring every snapshot row; moreover the null
test fires exactly when some snapshot row misses one of the two values. -/
theorem null_check_halts (ds : List Row) :
    (hasNullSnapshot ds = true ↔
      ∃ r ∈ snapshotOf ds, r.gdp = none ∨ r.pop = none) ∧
    (hasNullSnapshot ds = true → analyze ds = .error nullMsg) ∧
    (hasNullSnapshot ds = false →
      ∃ scored, analyze ds = .ok scored ∧
        scored.length = (snapshotOf ds).length) := by
  refine ⟨?_, ?_, ?_⟩
  · rw [hasNullSnapshot, List.any_eq_true]
    constructor
    · rintro ⟨r, hr, hnull⟩
      refine ⟨r, hr, ?_⟩
      rcases hg : r.gdp with _ | g <;> rcases hp : r.pop with _ | p <;>
        simp [hg, hp] at hnull ⊢
    · rintro ⟨r, hr, hnull⟩
      refine ⟨r, hr, ?_⟩
      rcases hnull with h | h <;> simp [h]
  · intro h
    rw [analyze, h]
    rfl
  · intro h
    refine ⟨(snapshotOf ds).filterMap scoreRow?, by rw [analyze, h]; rfl, ?_⟩
    apply length_filterMap_of_isSome
    intro r hr
    rw [hasNullSnapshot] at h
    have hnr := List.any_eq_false.mp h r hr
    rcases hg : r.gdp with _ | g <;> rcases hp : r.pop with _ | p <;>
      rw [hg, hp] at hnr <;> simp at hnr <;> simp [scoreRow?, hg, hp]

/-- Witness for C3: a dataset whose only row misses its GDP value halts
with the null warning. -/
theorem null_check_halts_witness :
    hasNullSnapshot [⟨"A", 2024, none, some 1⟩] = true ∧
      analyze [⟨"A", 2024, none, some 1⟩] = .error nullMsg :=
  ⟨by decide, (null_check_halts [⟨"A", 2024, none, some 1⟩]).2.1 (by decide)⟩

/-! ## Ranker (source lines 56-59) -/

/-- Embedding of the pandas Score idxmax (source line 57): the first row,
in iteration order, attaining the maximum Score. A later row replaces the
current best only when its Score is strictly larger. -/
def bestRow : List ScoredRow → Option ScoredRow
  | [] => none
  | r :: rs =>
    match bestRow rs with
    | none => some r
    | some b => if b.score > r.score then some b else some r

/-- Embedding of pais_ideal (source line 57): the Country label at the
argmax index. -/
def pais_ideal (scored : List ScoredRow) : Option String :=
  (bestRow scored).map (fun r => r.country)

/-- Embedding of pib_pais (source line 58): the GDP growth of the first
row whose Country equals pais_ideal. -/
def pib_pais (scored : List ScoredRow) : Option ℚ :=
  match pais_ideal scored with
  | none => none
  | some c => ((scored.filter (fun r => r.country == c)).map (fun r => r.gdp)).head?

/-- Embedding of pop_pais (source line 59): the population growth of the
first row whose Country equals pais_ideal. -/
def pop_pais (scored : List ScoredRow) : Option ℚ :=
  match pais_ideal scored with
  | none => none
  | some c => ((scored.filter (fun r => r.country == c)).map (fun r => r.pop)).head?

/-- The reporting property claimed of the ranker: the narrated GDP and
population growth values are those of the selected argmax row itself. -/
def reportsSelectedRowValues (scored : List ScoredRow) : Prop :=
  ∀ b, bestRow scored = some b →
    pib_pais scored = some b.gdp ∧ pop_pais scored = some b.pop

theorem bestRow_eq_none (l : List ScoredRow) (h : bestRow l = none) : l = [] := by
  cases l with
  | nil => rfl
  | cons r rs =>
    rw [bestRow] at h
    rcases hrs : bestRow rs with _ | b
    · simp only [hrs] at h
      exact absurd h (by simp)
    · simp only [hrs] at h
      by_cases hlt : b.score > r.score
      · rw [if_pos hlt] at h
        exact absurd h (by simp)
      · rw [if_neg hlt] at h
        exact absurd h (by simp)

theorem bestRow_first_argmax (l : List ScoredRow) (b : ScoredRow)
    (hb : bestRow l = some b) :
    (∃ l₁ l₂, l = l₁ ++ b :: l₂ ∧ ∀ x ∈ l₁, x.score < b.score) ∧
      ∀ x ∈ l, x.score ≤ b.score := by
  induction l generalizing b with
  | nil => exact absurd hb (by simp [bestRow])
  | cons r rs ih =>
    rw [bestRow] at hb
    rcases hrs : bestRow rs with _ | b' <;> simp only [hrs] at hb
    · have hnil := bestRow_eq_none rs hrs
      rw [Option.some.injEq] at hb
      subst hb
      subst hnil
      exact ⟨⟨[], [], rfl, by simp⟩, by simp⟩
    · by_cases hlt : b'.score > r.score
      · rw [if_pos hlt, Option.some.injEq] at hb
        subst hb
        obtain ⟨⟨l₁, l₂, hdec, hl₁⟩, hmax⟩ := ih b' hrs
        refine ⟨⟨r :: l₁, l₂, by rw [hdec]; rfl, ?_⟩, ?_⟩
        · intro x hx
          rcases List.mem_cons.mp hx with hx | hx
          · rw [hx]
            exact hlt
          · exact hl₁ x hx
        · intro x hx
          rcases List.mem_cons.mp hx with hx | hx
          · rw [hx]
            exact le_of_lt hlt
          · exact hmax x hx
      · rw [if_neg hlt, Option.some.injEq] at hb
        subst hb
        have hle : b'.score ≤ r.score := not_lt.mp hlt
        obtain ⟨_, hmax⟩ := ih b' hrs
        refine ⟨⟨[], rs, rfl, by simp⟩, ?_⟩
        intro x hx
        rcases List.mem_cons.mp hx with hx | hx
        · rw [hx]
        · exact le_trans (hmax x hx) hle

theorem head_filter_map {α β : Type} (l : List α) (p : α → Bool) (f : α → β) :
    ((l.filter p).map f).head? = (l.find? p).map f := by
  induction l with
  | nil => rfl
  | cons x xs ih =>
    by_cases hx : p x = true
    · simp [List.filter_cons, List.find?_cons, hx]
    · simp [List.filter_cons, List.find?_cons, hx, ih]

/-- C2 counterexample: on a snapshot holding two rows that share the
Country label A, with GDP growths 1 and 10, the argmax row is the second
one but the narrated GDP value is taken from the first row with that label,
so the reported components are not those of the selected row. -/
theorem ranker_values_counterexample :
    analyze [⟨"A", 2024, some 1, some 0⟩, ⟨"A", 2024, some 10, some 0⟩] =
      .ok [⟨"A", 2024, 1, 0, 1 * 0.7 + 0 * 0.3⟩,
        ⟨"A", 2024, 10, 0, 10 * 0.7 + 0 * 0.3⟩] ∧
    ¬ reportsSelectedRowValues
      [⟨"A", 2024, 1, 0, 1 * 0.7 + 0 * 0.3⟩,
        ⟨"A", 2024, 10, 0, 10 * 0.7 + 0 * 0.3⟩] := by
  refine ⟨rfl, ?_⟩
  intro h
  have hb : bestRow [⟨"A", 2024, 1, 0, 1 * 0.7 + 0 * 0.3⟩,
      ⟨"A", 2024, 10, 0, 10 * 0.7 + 0 * 0.3⟩] =
      some ⟨"A", 2024, 10, 0, 10 * 0.7 + 0 * 0.3⟩ := by
    norm_num [bestRow]
  have h2 := (h _ hb).1
  have hp : pib_pais [⟨"A", 2024, 1, 0, 1 * 0.7 + 0 * 0.3⟩,
      ⟨"A", 2024, 10, 0, 10 * 0.7 + 0 * 0.3⟩] = some 1 := by
    rw [pib_pais, pais_ideal, hb]
    rfl
  rw [hp] at h2
  rw [Option.some.injEq] at h2
  norm_num at h2

/-- C2 amended: the ranker selects the first row attaining the maximum
Score in iteration order and reports that row's Country label; the raw
component values it reports are those of the first snapshot row whose
Country equals the winning label (the selected row's own values whenever
the winning label is unique). -/
theorem ranker_spec (scored : List ScoredRow) (b : ScoredRow)
    (hb : bestRow scored = some b) :
    (∃ l₁ l₂, scored = l₁ ++ b :: l₂ ∧ ∀ x ∈ l₁, x.score < b.score) ∧
    (∀ x ∈ scored, x.score ≤ b.score) ∧
    pais_ideal scored = some b.country ∧
    pib_pais scored =
      ((scored.find? (fun r => r.country == b.country)).map (fun r => r.gdp)) ∧
    pop_pais scored =
      ((scored.find? (fun r => r.country == b.country)).map (fun r => r.pop)) := by
  obtain ⟨hdec, hmax⟩ := bestRow_first_argmax scored b hb
  have hpi : pais_ideal scored = some b.country := by
    rw [pais_ideal, hb]
    rfl
  refine ⟨hdec, hmax, hpi, ?_, ?_⟩
  · rw [pib_pais, hpi]
    exact head_filter_map scored (fun r => r.country == b.country) (fun r => r.gdp)
  · rw [pop_pais, hpi]
    exact head_filter_map scored (fun r => r.country == b.country) (fun r => r.pop)

/-- Witness for the amended C2: on a snapshot with Scores 5 and 7 the
second row, labelled Y, is selected and announced. -/
theorem ranker_spec_witness :
    bestRow [⟨"X", 2024, 5, 5, 5 * 0.7 + 5 * 0.3⟩,
      ⟨"Y", 2024, 7, 7, 7 * 0.7 + 7 * 0.3⟩] =
      some ⟨"Y", 2024, 7, 7, 7 * 0.7 + 7 * 0.3⟩ ∧
    pais_ideal [⟨"X", 2024, 5, 5, 5 * 0.7 + 5 * 0.3⟩,
      ⟨"Y", 2024, 7, 7, 7 * 0.7 + 7 * 0.3⟩] = some "Y" := by
  have hb : bestRow [⟨"X", 2024, 5, 5, 5 * 0.7 + 5 * 0.3⟩,
      ⟨"Y", 2024, 7, 7, 7 * 0.7 + 7 * 0.3⟩] =
      some ⟨"Y", 2024, 7, 7, 7 * 0.7 + 7 * 0.3⟩ := by
    norm_num [bestRow]
  exact ⟨hb, (ranker_spec _ _ hb).2.2.1⟩

/-! ## Country-name validation (source lines 80-89) -/

/-- Embedding of the invalid_countries comprehension (source lines 83-86):
the snapshot's country labels are stripped of surrounding whitespace and
each label that the reference lookup does not recognize is collected, one
occurrence per row. The pycountry reference set is abstracted as the
membership test known. -/
def invalid_countries (snap : List ScoredRow) (known : String → Bool) : List String :=
  (snap.map (fun r => stripStr r.country)).filter (fun c => !(known c))

/-- The claimed warning behaviour: recognized labels contribute nothing and
every unrecognized label appears exactly once per unique name in the
warning list. -/
def oneWarningPerUniqueInvalid (snap : List ScoredRow) (known : String → Bool) : Prop :=
  (∀ r ∈ snap, known (stripStr r.country) = true →
    stripStr r.country ∉ invalid_countries snap known) ∧
  (∀ c ∈ invalid_countries snap known, (invalid_countries snap known).count c = 1)

/-- C8 counterexample: a snapshot with two rows labelled Atlantis, a name
the reference set does not hold, produces the warning entry Atlantis twice,
not once per unique invalid name. -/
theorem invalid_countries_counterexample :
    ¬ oneWarningPerUniqueInvalid
      [⟨"Atlantis", 2024, 1, 0, 1 * 0.7 + 0 * 0.3⟩,
        ⟨"Atlantis", 2024, 2, 0, 2 * 0.7 + 0 * 0.3⟩]
      (fun c => c == "Brazil") := by
  intro h
  have h2 := h.2 "Atlantis" (by decide)
  revert h2
  decide

/-- C8 amended: country-name validation warns without aborting; a trimmed
label the reference set recognizes contributes no warning entry, and each
unrecognized trimmed label contributes one warning entry per snapshot row
bearing it (so duplicated rows are warned once per row, not once per unique
name). -/
theorem invalid_countries_count (snap : List ScoredRow) (known : String → Bool)
    (c : String) :
    (invalid_countries snap known).count c =
      if known c then 0 else snap.countP (fun r => stripStr r.country == c) := by
  induction snap with
  | nil => simp [invalid_countries]
  | cons r rs ih =>
    by_cases hk : known (stripStr r.country) = true
    · have h1 : invalid_countries (r :: rs) known = invalid_countries rs known := by
        simp [invalid_countries, List.filter_cons, hk]
      rw [h1, ih]
      by_cases hc : known c = true
      · simp [hc]
      · have hne : (stripStr r.country == c) = false := by
          rw [beq_eq_false_iff_ne]
          intro he
          rw [he] at hk
          exact hc hk
        simp [hc, List.countP_cons, hne]
    · have h1 : invalid_countries (r :: rs) known =
          stripStr r.country :: invalid_countries rs known := by
        simp [invalid_countries, List.filter_cons, hk]
      rw [h1]
      by_cases hbc : (stripStr r.country == c) = true
      · have heq : stripStr r.country = c := eq_of_beq hbc
        have hkc : ¬ known c = true := by
          rw [← heq]
          exact hk
        simp [List.count_cons, List.countP_cons, hbc, hkc, ih]
      · simp [List.count_cons, List.countP_cons, hbc, ih]

/-! ## Forecast estimator (source lines 152-164)

The script fits sklearn's LinearRegression of GDP growth on Year over a
seeded 80/20 train split of the full table and predicts the fixed literal
range of six future years. The fitted model is embedded by the
ordinary-least-squares closed form the library computes for one feature,
over exact rationals; the seeded split is abstracted as an arbitrary
selection of training points drawn from the dataset. -/

/-- Arithmetic mean of a list of rationals. -/
def meanQ (l : List ℚ) : ℚ := l.sum / l.length

/-- Mean of the feature column (Year) of the training points. -/
def mxOf (pts : List (ℚ × ℚ)) : ℚ := meanQ (pts.map Prod.fst)

/-- Mean of the target column (GDP growth) of the training points. -/
def myOf (pts : List (ℚ × ℚ)) : ℚ := meanQ (pts.map Prod.snd)

/-- Centered second moment of the feature column. -/
def sxxOf (pts : List (ℚ × ℚ)) : ℚ :=
  (pts.map (fun p => (p.1 - mxOf pts) * (p.1 - mxOf pts))).sum

/-- Centered cross moment of feature and target. -/
def sxyOf (pts : List (ℚ × ℚ)) : ℚ :=
  (pts.map (fun p => (p.1 - mxOf pts) * (p.2 - myOf pts))).sum

/-- Slope of the least-squares line fitted by model.fit (source line 159)
on the single feature Year. -/
def fitSlope (pts : List (ℚ × ℚ)) : ℚ := sxyOf pts / sxxOf pts

/-- Intercept of the fitted least-squares line. -/
def fitIntercept (pts : List (ℚ × ℚ)) : ℚ := myOf pts - fitSlope pts * mxOf pts

/-- The fixed literal year range of range(2025, 2031), source line 162. -/
def future_years : List ℤ := [2025, 2026, 2027, 2028, 2029, 2030]

/-- Embedding of model.predict over future_years (source lines 162-164):
the (Year, Predicted GDP Growth) pairs. -/
def forecast (train : List (ℚ × ℚ)) : List (ℤ × ℚ) :=
  future_years.map (fun y => (y, fitSlope train * (y : ℚ) + fitIntercept train))

theorem sum_map_mul_of_forall {α : Type} (l : List α) (f g : α → ℚ) (a : ℚ)
    (h : ∀ x ∈ l, f x = a * g x) :
    (l.map f).sum = a * (l.map g).sum := by
  induction l with
  | nil => simp
  | cons x xs ih =>
    simp only [List.map_cons, List.sum_cons]
    rw [h x (by simp), ih (fun y hy => h y (by simp [hy]))]
    ring

theorem sum_snd_affine (pts : List (ℚ × ℚ)) (a b : ℚ)
    (h : ∀ p ∈ pts, p.2 = a * p.1 + b) :
    (pts.map Prod.snd).sum = a * (pts.map Prod.fst).sum + b * pts.length := by
  induction pts with
  | nil => simp
  | cons p ps ih =>
    simp only [List.map_cons, List.sum_cons, List.length_cons]
    rw [h p (by simp), ih (fun q hq => h q (by simp [hq]))]
    push_cast
    ring

theorem myOf_affine (pts : List (ℚ × ℚ)) (a b : ℚ)
    (h : ∀ p ∈ pts, p.2 = a * p.1 + b) (hne : pts ≠ []) :
    myOf pts = a * mxOf pts + b := by
  have hn : (pts.length : ℚ) ≠ 0 :=
    Nat.cast_ne_zero.mpr (List.length_pos.mpr hne).ne'
  rw [myOf, mxOf, meanQ, meanQ, List.length_map, List.length_map,
    sum_snd_affine pts a b h]
  field_simp

theorem list_sum_nonneg_q (l : List ℚ) (h0 : ∀ x ∈ l, 0 ≤ x) : 0 ≤ l.sum := by
  induction l with
  | nil => simp
  | cons x xs ih =>
    rw [List.sum_cons]
    have hx := h0 x (by simp)
    have hxs := ih (fun z hz => h0 z (by simp [hz]))
    linarith

theorem list_sum_pos_of_mem (l : List ℚ) (h0 : ∀ x ∈ l, 0 ≤ x) (y : ℚ)
    (hy : y ∈ l) (hpos : 0 < y) : 0 < l.sum := by
  induction l with
  | nil => simp at hy
  | cons x xs ih =>
    rw [List.sum_cons]
    rcases List.mem_cons.mp hy with h | h
    · have hxs := list_sum_nonneg_q xs (fun z hz => h0 z (by simp [hz]))
      have hx : 0 < x := h ▸ hpos
      linarith
    · have hx := h0 x (by simp)
      have hxs := ih (fun z hz => h0 z (by simp [hz])) h
      linarith

theorem sxxOf_pos (pts : List (ℚ × ℚ)) (p q : ℚ × ℚ)
    (hp : p ∈ pts) (hq : q ∈ pts) (hpq : p.1 ≠ q.1) : 0 < sxxOf pts := by
  have key : ∀ r : ℚ × ℚ, r ∈ pts → r.1 ≠ mxOf pts → 0 < sxxOf pts := by
    intro r hr hrne
    refine list_sum_pos_of_mem _ ?_ ((r.1 - mxOf pts) * (r.1 - mxOf pts)) ?_ ?_
    · intro z hz
      obtain ⟨s, _, rfl⟩ := List.mem_map.mp hz
      exact mul_self_nonneg _
    · exact List.mem_map_of_mem _ hr
    · exact mul_self_pos.mpr (sub_ne_zero.mpr hrne)
  by_cases hx : p.1 = mxOf pts
  · refine key q hq ?_
    intro hy
    exact hpq (hx.trans hy.symm)
  · exact key p hp hx

theorem fitSlope_affine (pts : List (ℚ × ℚ)) (a b : ℚ)
    (h : ∀ p ∈ pts, p.2 = a * p.1 + b)
    (p q : ℚ × ℚ) (hp : p ∈ pts) (hq : q ∈ pts) (hpq : p.1 ≠ q.1) :
    fitSlope pts = a ∧ fitIntercept pts = b := by
  have hne : pts ≠ [] := List.ne_nil_of_mem hp
  have hmy : myOf pts = a * mxOf pts + b := myOf_affine pts a b h hne
  have hsxy : sxyOf pts = a * sxxOf pts := by
    unfold sxyOf sxxOf
    apply sum_map_mul_of_forall
    intro r hr
    rw [h r hr, hmy]
    ring
  have hpos := sxxOf_pos pts p q hp hq hpq
  have hslope : fitSlope pts = a := by
    rw [fitSlope, hsxy, mul_div_assoc, div_self hpos.ne', mul_one]
  refine ⟨hslope, ?_⟩
  rw [fitIntercept, hslope, hmy]
  ring

/-- C7: on a dataset whose GDP growth is an exact affine function of Year,
any training selection drawn from the dataset with two distinct Year values
makes the forecast emit the six pairs for years 2025 to 2030 reproducing
that same affine relationship exactly, and the predicted sequence is
monotone in the direction of the fitted slope. -/
theorem forecast_affine_exact (ds train : List (ℚ × ℚ)) (a b : ℚ)
    (hds : ∀ p ∈ ds, p.2 = a * p.1 + b)
    (htrain : ∀ p ∈ train, p ∈ ds)
    (p q : ℚ × ℚ) (hp : p ∈ train) (hq : q ∈ train) (hpq : p.1 ≠ q.1) :
    forecast train = future_years.map (fun y : ℤ => (y, a * (y : ℚ) + b)) ∧
    (0 ≤ a → ((forecast train).map Prod.snd).Chain' (· ≤ ·)) ∧
    (a ≤ 0 → ((forecast train).map Prod.snd).Chain' (· ≥ ·)) := by
  have haff : ∀ r ∈ train, r.2 = a * r.1 + b := fun r hr => hds r (htrain r hr)
  obtain ⟨hs, hi⟩ := fitSlope_affine train a b haff p q hp hq hpq
  have hfc : forecast train = future_years.map (fun y : ℤ => (y, a * (y : ℚ) + b)) := by
    rw [forecast, hs, hi]
  refine ⟨hfc, ?_, ?_⟩
  · intro ha
    rw [hfc]
    simp only [future_years, List.map_cons, List.map_nil, List.chain'_cons,
      List.chain'_singleton, and_true]
    refine ⟨?_, ?_, ?_, ?_, ?_⟩ <;> push_cast <;> linarith
  · intro ha
    rw [hfc]
    simp only [future_years, List.map_cons, List.map_nil, List.chain'_cons,
      List.chain'_singleton, and_true]
    refine ⟨?_, ?_, ?_, ?_, ?_⟩ <;> push_cast <;> linarith

/-- Witness for C7: on the exactly linear data GDP = 2 × (Year − 2000) the
forecast reproduces the line at the six future years. -/
theorem forecast_affine_exact_witness :
    forecast [((2000 : ℚ), (0 : ℚ)), ((2001 : ℚ), (2 : ℚ))] =
      [((2025 : ℤ), (50 : ℚ)), (2026, 52), (2027, 54),
        (2028, 56), (2029, 58), (2030, 60)] := by
  have h := forecast_affine_exact
    [((2000 : ℚ), (0 : ℚ)), ((2001 : ℚ), (2 : ℚ))]
    [((2000 : ℚ), (0 : ℚ)), ((2001 : ℚ), (2 : ℚ))]
    2 (-4000)
    (by intro r hr; fin_cases hr <;> norm_num)
    (fun r hr => hr)
    ((2000 : ℚ), (0 : ℚ)) ((2001 : ℚ), (2 : ℚ))
    (by simp) (by simp) (by norm_num)
  rw [h.1]
  norm_num [future_years]

/-- C10: `get_exchange_rate` never divides by zero: either it returns the
fallback value 1, or both looked-up rates are present and nonzero and the
result is their quotient. -/
theorem rate_no_div_by_zero (resp : FetchResult) (src dst : String) :
    get_exchange_rate resp src dst = 1 ∨
      ∃ rates o d, resp = .success (some rates) ∧
        lookupRate rates src = some o ∧ o ≠ 0 ∧
        lookupRate rates dst = some d ∧ d ≠ 0 ∧
        get_exchange_rate resp src dst = d / o := by
  rcases resp with body | msg
  · rcases body with _ | rates
    · exact Or.inl rfl
    · rcases hsrc : lookupRate rates src with _ | o
      · exact Or.inl (get_rate_src_none rates src dst hsrc)
      · rcases hdst : lookupRate rates dst with _ | d
        · exact Or.inl (get_rate_dst_none rates src dst hdst)
        · by_cases ho : o = 0
          · left
            rw [get_rate_some_some rates src dst o d hsrc hdst]
            simp [ho]
          · by_cases hd : d = 0
            · left
              rw [get_rate_some_some rates src dst o d hsrc hdst]
              simp [hd]
            · right
              refine ⟨rates, o, d, rfl, hsrc, ho, hdst, hd, ?_⟩
              rw [get_rate_some_some rates src dst o d hsrc hdst]
              simp [ho, hd]
  · exact Or.inl rfl
